import Mathlib

/- Shallow embedding of the AWP rotation daemon core:
   `src/awp/daemon.py` (Workspace model and main loop) and
   `src/awp/core/actions.py` (image loading/sorting and the state store).

   Modelling conventions:
   * Python `int` is `Int`; Python `%` on a positive divisor agrees with
     `Int.emod`, and Python sequence indexing (including negative indices)
     is `pyIndex` below.
   * The filesystem is explicit: an image folder is `Option (List Image)`
     (`none` models a missing path or a non-directory), and the JSON state
     file is the `FS` structure whose `main`/`tmp` fields hold the decoded
     JSON object (`none` models an absent or malformed file).
   * `random.randint` draws are an oracle stream `Nat → Int` consumed with
     explicit fuel, so the retry loop in `pick_next_index` is total.
   * Backend dispatch calls (`set_wallpaper`, icons, themes) and the
     best-effort runtime-state write are no-ops from the core's point of
     view; only the `IndexError` that `images[self.index]` can raise is
     modelled, as an `Except.error`.  -/

namespace AWP

/-- A candidate wallpaper file: its file name and its modification time
(`st_mtime`, modelled as an integer timestamp; only the `name_old` /
`name_new` sort branches look at it). -/
structure Image where
  name : String
  mtime : Int
deriving DecidableEq, Repr

/-- ASCII lower-casing of one character, the behaviour of Python's
`str.lower` on the ASCII file names the daemon compares. -/
def lowerChar (c : Char) : Char :=
  if 'A' ≤ c ∧ c ≤ 'Z' then Char.ofNat (c.toNat + 32) else c

/-- The sort key `f.name.lower()` from `sort_images`; Python compares the
resulting strings lexicographically by code point, which is the
lexicographic order on the character list. -/
def lowerName (i : Image) : List Char := i.name.data.map lowerChar

/-- Suffix test on character lists (`l` ends with `suff`). -/
def listEndsWith (l suff : List Char) : Bool :=
  l.drop (l.length - suff.length) == suff && suff.length ≤ l.length

/-- One `pathlib.Path.glob` pattern of `load_images`, i.e.
`"*.[jJ][pP][gG]"` with `suff = ".jpg"` (and likewise for `".png"`):
`*` matches any sequence of characters, including the empty one, and
`pathlib.Path.glob` does match hidden dot-files (so `".jpg"` and
`".hidden.jpg"` are both returned), so an entry name matches exactly when
it ends, case-insensitively, with the literal suffix. -/
def globMatch (name : String) (suff : List Char) : Bool :=
  listEndsWith (name.data.map lowerChar) suff

/-- The character list of the literal `".jpg"`. -/
def jpgExt : List Char := ".jpg".data

/-- The character list of the literal `".png"`. -/
def pngExt : List Char := ".png".data

/-- `load_images` from `src/awp/core/actions.py` (lines 23-28): if the
folder is not a directory return `[]`, otherwise the `*.jpg` glob matches
followed by the `*.png` glob matches, each in directory-listing order. -/
def load_images (folder : Option (List Image)) : List Image :=
  match folder with
  | none => []
  | some entries =>
      entries.filter (fun i => globMatch i.name jpgExt) ++
        entries.filter (fun i => globMatch i.name pngExt)

/-- `sort_images` from `src/awp/core/actions.py` (lines 30-40).  Python's
`sorted` is a stable sort, and any stable sort by the same key produces the
same list, so it is modelled by `List.insertionSort` with the non-strict
key comparison (which inserts each element before the first element it
compares `≤` to, preserving the original order of key-equal elements).
`reverse=True` in Python is a stable descending sort - key-equal elements
keep their original order rather than being reversed - which is
`insertionSort` with the flipped non-strict comparison.  An unrecognised
`order_key` falls through and returns the input unchanged. -/
def sort_images (images : List Image) (order_key : String) : List Image :=
  if order_key = "name_az" then
    List.insertionSort (fun a b => lowerName a ≤ lowerName b) images
  else if order_key = "name_za" then
    List.insertionSort (fun a b => lowerName b ≤ lowerName a) images
  else if order_key = "name_new" then
    List.insertionSort (fun a b => b.mtime ≤ a.mtime) images
  else if order_key = "name_old" then
    List.insertionSort (fun a b => a.mtime ≤ b.mtime) images
  else images

/-- The decoded JSON object of the state file: a key/value list with the
keys of a Python `dict` (unique, in insertion order), values the stored
integers. -/
abbrev StateDoc := List (String × Int)

/-- The state-store slice of the filesystem: the real state file
(`STATE_PATH`) and the temporary file (`STATE_PATH + ".tmp"`) that
`save_state` writes before the atomic `os.replace`.  `none` models an
absent or malformed file. -/
structure FS where
  main : Option StateDoc
  tmp : Option StateDoc
deriving DecidableEq, Repr

/-- `load_state` from `src/awp/core/actions.py` (lines 42-50): an absent or
malformed state file yields the empty dict, otherwise the decoded JSON
object. -/
def load_state (fs : FS) : StateDoc := fs.main.getD []

/-- `save_state` from `src/awp/core/actions.py` (lines 52-57): write the
serialised dict to the temporary file, then `os.replace` it over the real
path (the temporary name disappears, the real path now holds exactly what
was written). -/
def save_state (state : StateDoc) (fs : FS) : FS :=
  let written : FS := { fs with tmp := some state }
  { main := written.tmp, tmp := none }

/-- Python dict assignment `state[key] = value`: replace the value in
place if the key is present (keeping insertion order), otherwise append
the new key at the end. -/
def dict_set : StateDoc → String → Int → StateDoc
  | [], k, v => [(k, v)]
  | (k', v') :: rest, k, v =>
      if k' = k then (k, v) :: rest else (k', v') :: dict_set rest k v

/-- `get_ws_key` from `src/awp/core/actions.py` (lines 59-61). -/
def get_ws_key (ws_num : Nat) : String := "ws" ++ toString (ws_num + 1)

/-- The per-workspace configuration snapshot that
`config.get_workspace_config` returns, restricted to the fields the
daemon core reads.  `timing` is the already-parsed interval in seconds
(`parse_timing`); `folder` is the directory contents as seen by
`load_images`. -/
structure WsConfig where
  folder : Option (List Image)
  timing : Int
  mode : String
  order : String
deriving Repr

/-- The `Workspace` aggregate of `src/awp/daemon.py` (lines 81-141):
workspace ordinal `num`, state key `key = get_ws_key num`, the
configuration snapshot fields, the loaded image list, the current index
and the `next_switch_time` deadline. -/
structure Workspace where
  num : Nat
  key : String
  mode : String
  order : String
  timing : Int
  images : List Image
  index : Int
  nextSwitch : Int
deriving DecidableEq, Repr

/-- `Workspace.reload_images_and_index` from `src/awp/daemon.py`
(lines 91-112): refresh the config fields, reload and sort the images
(sequential mode uses the configured order, anything else sorts
`"name_az"`), then read this workspace's stored index.  `int(state.get(key, 0) or 0)`
is the stored integer when the key is present and `0` otherwise (`x or 0`
is the identity on integers).  The index is reset to `0` when the image
list is empty or the stored value is `>=` its length; a negative stored
value passes both tests unchanged. -/
def Workspace.reload (ws : Workspace) (cfg : WsConfig) (fs : FS) : Workspace :=
  let loaded := load_images cfg.folder
  let images :=
    if cfg.mode = "sequential" then sort_images loaded cfg.order
    else sort_images loaded "name_az"
  let stored : Int := ((load_state fs).lookup ws.key).getD 0
  let idx := if images = [] ∨ (images.length : Int) ≤ stored then 0 else stored
  { ws with mode := cfg.mode, order := cfg.order, timing := cfg.timing,
            images := images, index := idx }

/-- Python sequence indexing `l[i]`: a non-negative index reads position
`i`, a negative index reads from the end, anything out of range is `none`
(an `IndexError` at the call site). -/
def pyIndex {α : Type} (l : List α) (i : Int) : Option α :=
  if 0 ≤ i then l[i.toNat]?
  else if 0 ≤ (l.length : Int) + i then l[((l.length : Int) + i).toNat]?
  else none

/-- `Workspace.apply_index` from `src/awp/daemon.py` (lines 127-141): load
the full state, set `position`, write this workspace's key, save the full
state back, then read `images[self.index]` for the backend call.  The
state write happens before the read, so the returned filesystem is updated
even when the read raises `IndexError`; the backend `set_wallpaper` call
and the best-effort runtime-state write are no-ops in the model, so the
`Except` value carries only the image access. -/
def apply_index (ws : Workspace) (new_index : Int) (fs : FS) :
    Workspace × FS × Except String Image :=
  let state := load_state fs
  let ws' := { ws with index := new_index }
  let fs' := save_state (dict_set state ws.key new_index) fs
  (ws', fs',
    match pyIndex ws'.images ws'.index with
    | some img => Except.ok img
    | none => Except.error "IndexError")

/-- The retry loop of `pick_next_index` in random mode: `new_idx` starts
equal to `self.index` and is redrawn while it still equals it, so the
result is the first oracle draw that differs from `idx`.  `fuel` bounds
the number of draws the model inspects; `none` means no differing draw
appeared within the fuel. -/
def drawLoop (oracle : Nat → Int) (idx : Int) : Nat → Nat → Option Int
  | 0, _ => none
  | fuel + 1, k =>
      if oracle k = idx then drawLoop oracle idx fuel (k + 1) else some (oracle k)

/-- `Workspace.pick_next_index` from `src/awp/daemon.py` (lines 114-125):
`0` on an empty image list; in random mode `0` for a single image and
otherwise the first draw differing from the current index
(`random.randint(0, len(images)-1)` is the oracle stream); any other mode
takes the sequential branch `(index + 1) % len(images)`. -/
def pick_next_index (ws : Workspace) (oracle : Nat → Int) (fuel : Nat) : Option Int :=
  if ws.images = [] then some 0
  else if ws.mode = "random" then
    if ws.images.length = 1 then some 0
    else drawLoop oracle ws.index fuel 0
  else some ((ws.index + 1) % (ws.images.length : Int))

/-- One sequential rotation step: replace the index by the value the
sequential branch of `pick_next_index` returns (the "pick then set
position" step of the scheduler's timer branch). -/
def seq_rotate (ws : Workspace) : Workspace :=
  { ws with index := (ws.index + 1) % (ws.images.length : Int) }

/-- The workspace-switch branch of `main_loop` in `src/awp/daemon.py`
(lines 158-171): reload the workspace, apply its recorded index
unconditionally, then push `next_switch_time` to `now + timing`.  The
panel-icon, `config.reload()` and theme calls are backend no-ops in the
model.  There is no emptiness check before `apply_index`, so an
`IndexError` from `images[self.index]` propagates as an error result. -/
def switch_step (ws : Workspace) (cfg : WsConfig) (now : Int) (fs : FS) :
    Except String (Workspace × FS) :=
  let ws1 := ws.reload cfg fs
  match apply_index ws1 ws1.index fs with
  | (ws2, fs2, Except.ok _) =>
      Except.ok ({ ws2 with nextSwitch := now + ws2.timing }, fs2)
  | (_, _, Except.error e) => Except.error e

/-- The timer-expiry branch of `main_loop` in `src/awp/daemon.py`
(lines 173-179): when `now >= next_switch_time`, reload, and only if any
images exist pick the next index and apply it; `next_switch_time` advances
to `now + timing` in either case.  An exhausted draw loop (random mode
oracle fuel) is reported as a model-level error. -/
def timer_step (ws : Workspace) (cfg : WsConfig) (now : Int) (fs : FS)
    (oracle : Nat → Int) (fuel : Nat) : Except String (Workspace × FS) :=
  if now < ws.nextSwitch then Except.ok (ws, fs)
  else
    let ws1 := ws.reload cfg fs
    if ws1.images = [] then Except.ok ({ ws1 with nextSwitch := now + ws1.timing }, fs)
    else
      match pick_next_index ws1 oracle fuel with
      | none => Except.error "drawLoopFuelExhausted"
      | some idx =>
          match apply_index ws1 idx fs with
          | (ws2, fs2, Except.ok _) =>
              Except.ok ({ ws2 with nextSwitch := now + ws2.timing }, fs2)
          | (_, _, Except.error e) => Except.error e

/-- The per-tick inputs the loop reads from the outside world: the active
workspace reported by `get_current_workspace`, that workspace's current
on-disk configuration, and the current time. -/
structure TickIn where
  active : Nat
  cfg : WsConfig
  now : Int

/-- Replace the workspace with the same ordinal (the in-place mutation of
the object stored in the `workspaces` dict). -/
def updateWs (l : List Workspace) (w : Workspace) : List Workspace :=
  l.map fun x => if x.num = w.num then w else x

/-- The mutable state of `main_loop`: the workspace table, the state-store
filesystem and the `last_ws` variable. -/
structure LoopState where
  workspaces : List Workspace
  fs : FS
  lastWs : Option Nat

/-- One iteration of the `while True` body of `main_loop` in
`src/awp/daemon.py` (lines 150-181): look up the active workspace (no
work if it is not registered), run the workspace-switch branch when the
active workspace changed, then the timer branch.  The body has no
`try`/`except`, so any error from either branch is returned as the tick's
result instead of being handled. -/
def tick (st : LoopState) (inp : TickIn) (oracle : Nat → Int) (fuel : Nat) :
    Except String LoopState :=
  match st.workspaces.find? (fun w => w.num == inp.active) with
  | none => Except.ok st
  | some ws =>
      if some inp.active = st.lastWs then
        match timer_step ws inp.cfg inp.now st.fs oracle fuel with
        | Except.ok (ws1, fs1) =>
            Except.ok ⟨updateWs st.workspaces ws1, fs1, st.lastWs⟩
        | Except.error e => Except.error e
      else
        match switch_step ws inp.cfg inp.now st.fs with
        | Except.error e => Except.error e
        | Except.ok (ws1, fs1) =>
            match timer_step ws1 inp.cfg inp.now fs1 oracle fuel with
            | Except.ok (ws2, fs2) =>
                Except.ok ⟨updateWs st.workspaces ws2, fs2, some inp.active⟩
            | Except.error e => Except.error e

/-- The daemon loop of `src/awp/daemon.py` run for `n` ticks over a stream
of per-tick inputs.  The Python loop body is not wrapped in any exception
handler, so the first tick that raises terminates the loop - and with it
the daemon process - which the model renders as an `Except.error` result
of the whole run. -/
def main_loop (inputs : Nat → TickIn) (oracle : Nat → Int) (fuel : Nat) :
    Nat → LoopState → Except String LoopState
  | 0, st => Except.ok st
  | n + 1, st =>
      match tick st (inputs n) oracle fuel with
      | Except.ok st' => main_loop inputs oracle fuel n st'
      | Except.error e => Except.error e

/-- Modelled from the spec: the extension filter the specification claims
for `load_images` - a file is kept when its name ends, case-insensitively,
in `.jpg`, `.jpeg` or `.png`.  Used only to state how the code differs
from the claim (the code's glob patterns accept `.jpg` and `.png` but not
`.jpeg`). -/
def specExtOk (i : Image) : Bool :=
  listEndsWith (lowerName i) ".jpg".data ||
    listEndsWith (lowerName i) ".jpeg".data ||
    listEndsWith (lowerName i) ".png".data

/- ------------------------------------------------------------------ -/
/- Theorems                                                            -/
/- ------------------------------------------------------------------ -/

/-- C5 counterexample: `"a.jpeg"` has one of the extensions the claim
lists (case-insensitively `.jpg`, `.jpeg` or `.png`), yet `load_images`
returns the empty list on a folder containing exactly that file, because
the code's glob patterns are `*.[jJ][pP][gG]` and `*.[pP][nN][gG]` only. -/
theorem load_images_jpeg_counterexample :
    specExtOk ⟨"a.jpeg", 0⟩ = true ∧
      load_images (some [⟨"a.jpeg", 0⟩]) = [] := by decide

/-- C5 (amended): `load_images` returns `[]` when the folder is missing or
not a directory, and on a directory it returns exactly the entries whose
name ends case-insensitively in `.jpg` or `.png` - `.jpeg` files are not
returned. -/
theorem load_images_filter_spec :
    load_images none = ([] : List Image) ∧
      ∀ (entries : List Image) (x : Image),
        x ∈ load_images (some entries) ↔
          x ∈ entries ∧ (globMatch x.name jpgExt = true ∨ globMatch x.name pngExt = true) := by
  refine ⟨rfl, ?_⟩
  intro entries x
  simp only [load_images, List.mem_append, List.mem_filter]
  tauto

/-- C8 counterexample: for the unrecognised order key `"random"` the code
returns the input list unchanged, which differs from the `name_az` result
on a two-element unsorted list. -/
theorem sort_images_fallthrough_counterexample :
    sort_images [⟨"b.jpg", 0⟩, ⟨"a.jpg", 0⟩] "random" = [⟨"b.jpg", 0⟩, ⟨"a.jpg", 0⟩] ∧
      sort_images [⟨"b.jpg", 0⟩, ⟨"a.jpg", 0⟩] "name_az" = [⟨"a.jpg", 0⟩, ⟨"b.jpg", 0⟩] ∧
      sort_images [⟨"b.jpg", 0⟩, ⟨"a.jpg", 0⟩] "random" ≠
        sort_images [⟨"b.jpg", 0⟩, ⟨"a.jpg", 0⟩] "name_az" := by decide

/-- C8 (amended): for every order key other than the four recognised ones
(`name_az`, `name_za`, `name_new`, `name_old`), `sort_images` returns its
input unchanged (it does not sort; random mode is sorted ascending only
because every caller passes the literal key `"name_az"` in that case). -/
theorem sort_images_other_key (images : List Image) (key : String)
    (h1 : key ≠ "name_az") (h2 : key ≠ "name_za")
    (h3 : key ≠ "name_new") (h4 : key ≠ "name_old") :
    sort_images images key = images := by
  simp [sort_images, h1, h2, h3, h4]

/-- C8 witness: the amended theorem applied to the key `"random"` and a
concrete unsorted list. -/
theorem sort_images_other_key_witness :
    sort_images [⟨"b.jpg", 0⟩, ⟨"a.jpg", 0⟩] "random" = [⟨"b.jpg", 0⟩, ⟨"a.jpg", 0⟩] :=
  sort_images_other_key [⟨"b.jpg", 0⟩, ⟨"a.jpg", 0⟩] "random"
    (by decide) (by decide) (by decide) (by decide)

/-- C6: saving a state dict (unique keys, non-negative values) and loading
it back returns exactly the same dict: `save_state` materialises the
serialised dict in the temporary file and atomically renames it over the
real path, and `load_state` decodes exactly that document. -/
theorem save_then_load_roundtrip (m : StateDoc) (fs : FS)
    (hkeys : (m.map Prod.fst).Nodup) (hvals : ∀ p ∈ m, 0 ≤ p.2) :
    load_state (save_state m fs) = m := rfl

/-- C6 witness: the round trip at a concrete two-workspace state over a
filesystem whose state file previously held other content. -/
theorem save_then_load_roundtrip_witness :
    load_state (save_state [("ws1", 3), ("ws2", 0)] ⟨some [("ws1", 7)], none⟩) =
      [("ws1", 3), ("ws2", 0)] :=
  save_then_load_roundtrip [("ws1", 3), ("ws2", 0)] ⟨some [("ws1", 7)], none⟩
    (by decide) (by decide)

/-- Looking up the assigned key after a dict assignment yields the new
value. -/
theorem dict_set_lookup_eq (l : StateDoc) (k : String) (v : Int) :
    (dict_set l k v).lookup k = some v := by
  induction l with
  | nil => simp [dict_set, List.lookup]
  | cons p rest ih =>
      obtain ⟨k', v'⟩ := p
      by_cases h : k' = k
      · subst h
        simp [dict_set, List.lookup]
      · have hb : (k == k') = false := beq_eq_false_iff_ne.mpr (Ne.symm h)
        simp [dict_set, if_neg h, List.lookup, hb, ih]

/-- A dict assignment leaves the value of every other key unchanged. -/
theorem dict_set_lookup_ne (l : StateDoc) (k k' : String) (v : Int) (h : k' ≠ k) :
    (dict_set l k v).lookup k' = l.lookup k' := by
  have hb : (k' == k) = false := beq_eq_false_iff_ne.mpr h
  induction l with
  | nil => simp [dict_set, List.lookup, hb]
  | cons p rest ih =>
      obtain ⟨a, b⟩ := p
      by_cases ha : a = k
      · subst ha
        simp [dict_set, List.lookup, hb]
      · by_cases hk' : k' = a
        · subst hk'
          simp [dict_set, if_neg ha, List.lookup]
        · have hb2 : (k' == a) = false := beq_eq_false_iff_ne.mpr hk'
          simp [dict_set, if_neg ha, List.lookup, hb2, ih]

/-- C7: `apply_index` performs a read-modify-write of the state file - the
persisted state after the call maps the workspace's own key to the new
index, and every other key (other workspaces, `_last` entries) keeps
exactly its previous value. -/
theorem apply_index_frame (ws : Workspace) (new_index : Int) (fs : FS)
    (k : String) (hk : k ≠ ws.key) :
    (load_state (apply_index ws new_index fs).2.1).lookup ws.key = some new_index ∧
      (load_state (apply_index ws new_index fs).2.1).lookup k = (load_state fs).lookup k := by
  have hfs : (apply_index ws new_index fs).2.1 =
      save_state (dict_set (load_state fs) ws.key new_index) fs := rfl
  rw [hfs]
  have hload : load_state (save_state (dict_set (load_state fs) ws.key new_index) fs) =
      dict_set (load_state fs) ws.key new_index := rfl
  rw [hload]
  exact ⟨dict_set_lookup_eq _ _ _, dict_set_lookup_ne _ _ _ _ hk⟩

/-- C7 witness: the frame property at a concrete workspace (`ws1`), a
concrete prior state holding another workspace's entry and a `_last`
entry, checked at the key `"ws2"`. -/
theorem apply_index_frame_witness :
    (load_state (apply_index
        ⟨0, "ws1", "sequential", "name_az", 60, [⟨"a.jpg", 0⟩], 0, 0⟩ 2
        ⟨some [("ws2", 7), ("ws2_last", 4)], none⟩).2.1).lookup "ws1" = some 2 ∧
      (load_state (apply_index
        ⟨0, "ws1", "sequential", "name_az", 60, [⟨"a.jpg", 0⟩], 0, 0⟩ 2
        ⟨some [("ws2", 7), ("ws2_last", 4)], none⟩).2.1).lookup "ws2" =
        (load_state (⟨some [("ws2", 7), ("ws2_last", 4)], none⟩ : FS)).lookup "ws2" :=
  apply_index_frame ⟨0, "ws1", "sequential", "name_az", 60, [⟨"a.jpg", 0⟩], 0, 0⟩ 2
    ⟨some [("ws2", 7), ("ws2_last", 4)], none⟩ "ws2" (by decide)

/-- Any value the retry loop returns is a draw of the oracle and differs
from the excluded index. -/
theorem drawLoop_result (oracle : Nat → Int) (idx : Int) :
    ∀ (fuel k : Nat) (v : Int), drawLoop oracle idx fuel k = some v →
      v ≠ idx ∧ ∃ j, v = oracle j := by
  intro fuel
  induction fuel with
  | zero => intro k v h; simp [drawLoop] at h
  | succ n ih =>
      intro k v h
      by_cases hc : oracle k = idx
      · rw [drawLoop, if_pos hc] at h
        exact ih (k + 1) v h
      · rw [drawLoop, if_neg hc] at h
        cases h
        exact ⟨hc, k, rfl⟩

/-- C1: in random mode, with the `random.randint(0, len(images)-1)` draws
modelled as an arbitrary oracle stream of values in `[0, len(images))`,
every value `pick_next_index` returns for `len(images) >= 2` differs from
the current index and lies in `[0, len(images))`, and for
`len(images) = 1` it returns `0`. -/
theorem pick_next_index_random_spec (ws : Workspace) (oracle : Nat → Int) (fuel : Nat)
    (hmode : ws.mode = "random")
    (hor : ∀ i, 0 ≤ oracle i ∧ oracle i < (ws.images.length : Int)) :
    (ws.images.length = 1 → pick_next_index ws oracle fuel = some 0) ∧
      (2 ≤ ws.images.length → ∀ v, pick_next_index ws oracle fuel = some v →
        v ≠ ws.index ∧ 0 ≤ v ∧ v < (ws.images.length : Int)) := by
  constructor
  · intro h1
    have hne : ws.images ≠ [] := by
      intro he
      rw [he] at h1
      simp at h1
    rw [pick_next_index, if_neg hne, if_pos hmode, if_pos h1]
  · intro h2 v hv
    have hne : ws.images ≠ [] := by
      intro he
      rw [he] at h2
      simp at h2
    have hlen1 : ws.images.length ≠ 1 := by omega
    rw [pick_next_index, if_neg hne, if_pos hmode, if_neg hlen1] at hv
    obtain ⟨hvne, j, hj⟩ := drawLoop_result oracle ws.index fuel 0 v hv
    exact ⟨hvne, hj ▸ (hor j).1, hj ▸ (hor j).2⟩

/-- C1 witness: a two-image random workspace at index `0` with a constant
oracle drawing `1`; the theorem applies and `pick_next_index` indeed
returns `some 1`, which differs from the index and is in range. -/
theorem pick_next_index_random_spec_witness :
    pick_next_index ⟨0, "ws1", "random", "name_az", 60,
        [⟨"a.jpg", 0⟩, ⟨"b.jpg", 0⟩], 0, 0⟩ (fun _ => 1) 1 = some 1 ∧
      ((1 : Int) ≠ 0 ∧ (0 : Int) ≤ 1 ∧ (1 : Int) < 2) :=
  ⟨by decide,
    by
      have h := (pick_next_index_random_spec
        ⟨0, "ws1", "random", "name_az", 60, [⟨"a.jpg", 0⟩, ⟨"b.jpg", 0⟩], 0, 0⟩
        (fun _ => 1) 1 rfl (by intro i; norm_num)).2
        (by decide) 1 (by decide)
      exact h⟩

/-- Iterating the sequential rotation step adds the iteration count to the
index, modulo the (unchanged) image count. -/
theorem seq_rotate_iterate (ws : Workspace)
    (h0 : 0 ≤ ws.index) (hlt : ws.index < (ws.images.length : Int)) :
    ∀ k : Nat, seq_rotate^[k] ws =
      { ws with index := (ws.index + (k : Int)) % (ws.images.length : Int) } := by
  intro k
  induction k with
  | zero =>
      simp only [Function.iterate_zero_apply, Int.ofNat_zero, add_zero]
      rw [Int.emod_eq_of_lt h0 hlt]
  | succ n ih =>
      rw [Function.iterate_succ_apply', ih]
      show ({ ws with index :=
        ((ws.index + (n : Int)) % (ws.images.length : Int) + 1) % (ws.images.length : Int) }
          : Workspace) = _
      rw [Int.emod_add_emod]
      push_cast
      rw [add_assoc]

/-- C10: in sequential mode with a non-empty image list and an in-range
index, `pick_next_index` returns `(index + 1) mod len(images)` (the index
of `seq_rotate`), and iterating the pick-then-set-position step
`len(images)` times returns the workspace to its original state. -/
theorem pick_next_index_sequential_spec (ws : Workspace) (oracle : Nat → Int) (fuel : Nat)
    (hmode : ws.mode = "sequential") (hne : ws.images ≠ [])
    (h0 : 0 ≤ ws.index) (hlt : ws.index < (ws.images.length : Int)) :
    pick_next_index ws oracle fuel = some ((seq_rotate ws).index) ∧
      seq_rotate^[ws.images.length] ws = ws := by
  constructor
  · have hmr : ws.mode ≠ "random" := by rw [hmode]; decide
    rw [pick_next_index, if_neg hne, if_neg hmr]
    rfl
  · rw [seq_rotate_iterate ws h0 hlt ws.images.length]
    have : (ws.index + (ws.images.length : Int)) % (ws.images.length : Int) = ws.index := by
      have h1 : (ws.index + (ws.images.length : Int) * 1) % (ws.images.length : Int) =
          ws.index % (ws.images.length : Int) := Int.add_mul_emod_self_left ..
      rw [mul_one] at h1
      rw [h1, Int.emod_eq_of_lt h0 hlt]
    rw [this]

/-- C10 witness: a three-image sequential workspace at index `0`: the pick
returns `some 1` and three rotation steps return to the start. -/
theorem pick_next_index_sequential_spec_witness :
    pick_next_index ⟨0, "ws1", "sequential", "name_az", 60,
        [⟨"a.jpg", 0⟩, ⟨"b.jpg", 0⟩, ⟨"c.png", 0⟩], 0, 0⟩ (fun _ => 0) 0 =
      some ((seq_rotate ⟨0, "ws1", "sequential", "name_az", 60,
        [⟨"a.jpg", 0⟩, ⟨"b.jpg", 0⟩, ⟨"c.png", 0⟩], 0, 0⟩).index) ∧
      seq_rotate^[3] ⟨0, "ws1", "sequential", "name_az", 60,
        [⟨"a.jpg", 0⟩, ⟨"b.jpg", 0⟩, ⟨"c.png", 0⟩], 0, 0⟩ =
        ⟨0, "ws1", "sequential", "name_az", 60,
          [⟨"a.jpg", 0⟩, ⟨"b.jpg", 0⟩, ⟨"c.png", 0⟩], 0, 0⟩ :=
  pick_next_index_sequential_spec
    ⟨0, "ws1", "sequential", "name_az", 60,
      [⟨"a.jpg", 0⟩, ⟨"b.jpg", 0⟩, ⟨"c.png", 0⟩], 0, 0⟩
    (fun _ => 0) 0 rfl (by decide) (by decide) (by decide)

/-- C3 counterexample: with the stored value `-1` for `ws1` and a folder
holding one image, `reload_images_and_index` leaves the index at `-1`
(the clamp `index >= len(images)` only catches over-large values), so the
claimed invariant `0 <= index` fails on a non-empty image list. -/
theorem reload_negative_index_counterexample :
    (Workspace.reload ⟨0, "ws1", "random", "name_az", 60, [], 0, 0⟩
        ⟨some [⟨"a.jpg", 0⟩], 60, "sequential", "name_az"⟩
        ⟨some [("ws1", -1)], none⟩).images ≠ [] ∧
      (Workspace.reload ⟨0, "ws1", "random", "name_az", 60, [], 0, 0⟩
        ⟨some [⟨"a.jpg", 0⟩], 60, "sequential", "name_az"⟩
        ⟨some [("ws1", -1)], none⟩).index = -1 := by decide

/-- C3 (amended): after `reload_images_and_index` with a non-empty
resulting image list, a non-negative stored value establishes the
invariant `0 <= index < len(images)` (values `>= len(images)` are clamped
to `0`), while a negative stored value is kept unchanged as the index,
violating the lower bound. -/
theorem reload_index_clamp (ws : Workspace) (cfg : WsConfig) (fs : FS)
    (hne : (ws.reload cfg fs).images ≠ []) :
    (0 ≤ ((load_state fs).lookup ws.key).getD 0 →
        0 ≤ (ws.reload cfg fs).index ∧
        (ws.reload cfg fs).index < ((ws.reload cfg fs).images.length : Int) ∧
        (((ws.reload cfg fs).images.length : Int) ≤ ((load_state fs).lookup ws.key).getD 0 →
          (ws.reload cfg fs).index = 0)) ∧
      (((load_state fs).lookup ws.key).getD 0 < 0 →
        (ws.reload cfg fs).index = ((load_state fs).lookup ws.key).getD 0) := by
  set stored : Int := ((load_state fs).lookup ws.key).getD 0 with hstored
  have himg : (ws.reload cfg fs).images =
      (if cfg.mode = "sequential" then sort_images (load_images cfg.folder) cfg.order
       else sort_images (load_images cfg.folder) "name_az") := rfl
  have hidx : (ws.reload cfg fs).index =
      (if (ws.reload cfg fs).images = [] ∨
          (((ws.reload cfg fs).images.length : Int) ≤ stored) then 0 else stored) := rfl
  rw [hidx]
  by_cases hc : (ws.reload cfg fs).images = [] ∨
      (((ws.reload cfg fs).images.length : Int) ≤ stored)
  · rw [if_pos hc]
    rcases hc with hc | hc
    · exact absurd hc hne
    · have hlen : 0 < (ws.reload cfg fs).images.length := List.length_pos.mpr hne
      constructor
      · intro _
        refine ⟨le_refl 0, ?_, fun _ => rfl⟩
        exact_mod_cast hlen
      · intro hneg
        have : (0 : Int) < ((ws.reload cfg fs).images.length : Int) := by exact_mod_cast hlen
        omega
  · rw [if_neg hc]
    push_neg at hc
    obtain ⟨-, hlt⟩ := hc
    constructor
    · intro hpos
      exact ⟨hpos, hlt, fun hge => absurd hge (not_le.mpr hlt)⟩
    · intro _
      rfl

/-- C3 witness: stored value `5` with a single-image folder - the clamp
fires and the reloaded index is `0`, inside the invariant range. -/
theorem reload_index_clamp_witness :
    (0 ≤ ((load_state (⟨some [("ws1", 5)], none⟩ : FS)).lookup
          (Workspace.key ⟨0, "ws1", "random", "name_az", 60, [], 0, 0⟩)).getD 0 →
        0 ≤ (Workspace.reload ⟨0, "ws1", "random", "name_az", 60, [], 0, 0⟩
            ⟨some [⟨"a.jpg", 0⟩], 60, "sequential", "name_az"⟩
            ⟨some [("ws1", 5)], none⟩).index ∧
        (Workspace.reload ⟨0, "ws1", "random", "name_az", 60, [], 0, 0⟩
            ⟨some [⟨"a.jpg", 0⟩], 60, "sequential", "name_az"⟩
            ⟨some [("ws1", 5)], none⟩).index <
          (((Workspace.reload ⟨0, "ws1", "random", "name_az", 60, [], 0, 0⟩
            ⟨some [⟨"a.jpg", 0⟩], 60, "sequential", "name_az"⟩
            ⟨some [("ws1", 5)], none⟩).images.length : Int)) ∧
        ((((Workspace.reload ⟨0, "ws1", "random", "name_az", 60, [], 0, 0⟩
            ⟨some [⟨"a.jpg", 0⟩], 60, "sequential", "name_az"⟩
            ⟨some [("ws1", 5)], none⟩).images.length : Int)) ≤
            ((load_state (⟨some [("ws1", 5)], none⟩ : FS)).lookup
              (Workspace.key ⟨0, "ws1", "random", "name_az", 60, [], 0, 0⟩)).getD 0 →
          (Workspace.reload ⟨0, "ws1", "random", "name_az", 60, [], 0, 0⟩
            ⟨some [⟨"a.jpg", 0⟩], 60, "sequential", "name_az"⟩
            ⟨some [("ws1", 5)], none⟩).index = 0)) ∧
      (((load_state (⟨some [("ws1", 5)], none⟩ : FS)).lookup
          (Workspace.key ⟨0, "ws1", "random", "name_az", 60, [], 0, 0⟩)).getD 0 < 0 →
        (Workspace.reload ⟨0, "ws1", "random", "name_az", 60, [], 0, 0⟩
          ⟨some [⟨"a.jpg", 0⟩], 60, "sequential", "name_az"⟩
          ⟨some [("ws1", 5)], none⟩).index =
          ((load_state (⟨some [("ws1", 5)], none⟩ : FS)).lookup
            (Workspace.key ⟨0, "ws1", "random", "name_az", 60, [], 0, 0⟩)).getD 0) :=
  reload_index_clamp ⟨0, "ws1", "random", "name_az", 60, [], 0, 0⟩
    ⟨some [⟨"a.jpg", 0⟩], 60, "sequential", "name_az"⟩
    ⟨some [("ws1", 5)], none⟩ (by decide)

/-- C4: a workspace-switch tick over an empty image folder does not
complete - the switch branch calls `apply_index(ws.index)` without
checking that any images exist, `images[self.index]` raises `IndexError`
on the empty list, and the branch errors out (the sibling implementation
`awp_daemon.py` guards this same call with `if self.images`). -/
theorem switch_step_empty_folder_raises :
    switch_step ⟨0, "ws1", "random", "name_az", 60, [], 0, 0⟩
      ⟨some [], 60, "random", "name_az"⟩ 0 ⟨none, none⟩ =
      Except.error "IndexError" := rfl

/-- C2: the daemon's `main_loop` has no `try`/`except` around the tick
body, so a single failing tick terminates the whole loop: with one
registered workspace whose folder is empty, the very first tick (a
workspace-switch tick) raises `IndexError` inside `apply_index` and the
loop run ends with that error instead of continuing. -/
theorem main_loop_exits_on_tick_error :
    main_loop (fun _ => ⟨0, ⟨some [], 60, "random", "name_az"⟩, 0⟩) (fun _ => 0) 1 1
      ⟨[⟨0, "ws1", "random", "name_az", 60, [], 0, 0⟩], ⟨none, none⟩, none⟩ =
      Except.error "IndexError" := rfl

/-- `sort_images` takes the `insertionSort` branch for the key
`"name_az"`. -/
theorem sort_images_az_insertionSort (l : List Image) :
    sort_images l "name_az" =
      List.insertionSort (fun a b => lowerName a ≤ lowerName b) l := by
  simp [sort_images]

/-- `sort_images` takes the flipped `insertionSort` branch for the key
`"name_za"`. -/
theorem sort_images_za_insertionSort (l : List Image) :
    sort_images l "name_za" =
      List.insertionSort (fun a b => lowerName b ≤ lowerName a) l := by
  simp [sort_images]

/-- C9 counterexample: on `["A.jpg", "a.jpg"]`, whose two names are equal
after case-folding, the `name_za` sort is NOT the reverse of the `name_az`
sort: both of Python's stable sorts keep the tied pair in its original
order (`reverse=True` does not reverse equal elements), so reversing the
ascending result swaps the pair while the descending result does not. -/
theorem sort_images_za_reverse_counterexample :
    sort_images [⟨"A.jpg", 0⟩, ⟨"a.jpg", 0⟩] "name_za" ≠
      (sort_images [⟨"A.jpg", 0⟩, ⟨"a.jpg", 0⟩] "name_az").reverse := by decide

/-- C9 (amended): for every non-empty image list, `sort_images` with
`name_az` and with `name_za` are each idempotent; the `name_za` result
equals the reversal of the `name_az` result whenever the case-folded
names are pairwise distinct (on inputs with case-folded ties the
reversal identity fails, because both directions are stable). -/
theorem sort_images_az_za_spec (l : List Image) (hne : l ≠ []) :
    sort_images (sort_images l "name_az") "name_az" = sort_images l "name_az" ∧
      sort_images (sort_images l "name_za") "name_za" = sort_images l "name_za" ∧
      (l.Pairwise (fun a b => lowerName a ≠ lowerName b) →
        sort_images l "name_za" = (sort_images l "name_az").reverse) := by
  haveI : IsTotal Image (fun a b => lowerName a ≤ lowerName b) :=
    ⟨fun a b => le_total _ _⟩
  haveI : IsTrans Image (fun a b => lowerName a ≤ lowerName b) :=
    ⟨fun _ _ _ h1 h2 => le_trans h1 h2⟩
  haveI : IsTotal Image (fun a b => lowerName b ≤ lowerName a) :=
    ⟨fun a b => le_total _ _⟩
  haveI : IsTrans Image (fun a b => lowerName b ≤ lowerName a) :=
    ⟨fun _ _ _ h1 h2 => le_trans h2 h1⟩
  refine ⟨?_, ?_, ?_⟩
  · rw [sort_images_az_insertionSort, sort_images_az_insertionSort]
    exact (List.sorted_insertionSort _ l).insertionSort_eq
  · rw [sort_images_za_insertionSort, sort_images_za_insertionSort]
    exact (List.sorted_insertionSort _ l).insertionSort_eq
  · intro hpair
    rw [sort_images_az_insertionSort, sort_images_za_insertionSort]
    have hpr := List.perm_insertionSort (fun a b : Image => lowerName a ≤ lowerName b) l
    have hps := List.perm_insertionSort (fun a b : Image => lowerName b ≤ lowerName a) l
    have hpair_r :
        (List.insertionSort (fun a b : Image => lowerName a ≤ lowerName b) l).Pairwise
          (fun a b => lowerName a ≠ lowerName b) :=
      (hpr.pairwise_iff (fun hxy => Ne.symm hxy)).mpr hpair
    have hpair_s :
        (List.insertionSort (fun a b : Image => lowerName b ≤ lowerName a) l).Pairwise
          (fun a b => lowerName a ≠ lowerName b) :=
      (hps.pairwise_iff (fun hxy => Ne.symm hxy)).mpr hpair
    have hsort_r := List.sorted_insertionSort (fun a b : Image => lowerName a ≤ lowerName b) l
    have hsort_s := List.sorted_insertionSort (fun a b : Image => lowerName b ≤ lowerName a) l
    have hza :
        (List.insertionSort (fun a b : Image => lowerName b ≤ lowerName a) l).Pairwise
          (fun a b => lowerName b < lowerName a) :=
      (List.Pairwise.and hsort_s hpair_s).imp
        (fun h => lt_of_le_of_ne h.1 (Ne.symm h.2))
    have haz :
        (List.insertionSort (fun a b : Image => lowerName a ≤ lowerName b) l).Pairwise
          (fun a b => lowerName a < lowerName b) :=
      (List.Pairwise.and hsort_r hpair_r).imp
        (fun h => lt_of_le_of_ne h.1 h.2)
    have hrev :
        ((List.insertionSort (fun a b : Image => lowerName a ≤ lowerName b) l).reverse).Pairwise
          (fun a b => lowerName b < lowerName a) :=
      List.pairwise_reverse.mpr haz
    have hperm :
        (List.insertionSort (fun a b : Image => lowerName b ≤ lowerName a) l).Perm
          ((List.insertionSort (fun a b : Image => lowerName a ≤ lowerName b) l).reverse) :=
      hps.trans (hpr.symm.trans (List.reverse_perm _).symm)
    haveI : IsAntisymm Image (fun a b : Image => lowerName b < lowerName a) :=
      ⟨fun _ _ h1 h2 => ((lt_asymm h1) h2).elim⟩
    exact List.eq_of_perm_of_sorted hperm hza hrev

/-- C9 witness: the amended theorem at the two-image list with distinct
case-folded names `["a.jpg", "b.jpg"]`: both sorts are idempotent there
and the descending sort is the reverse of the ascending one. -/
theorem sort_images_az_za_spec_witness :
    sort_images (sort_images [⟨"a.jpg", 0⟩, ⟨"b.jpg", 0⟩] "name_az") "name_az" =
        sort_images [⟨"a.jpg", 0⟩, ⟨"b.jpg", 0⟩] "name_az" ∧
      sort_images (sort_images [⟨"a.jpg", 0⟩, ⟨"b.jpg", 0⟩] "name_za") "name_za" =
        sort_images [⟨"a.jpg", 0⟩, ⟨"b.jpg", 0⟩] "name_za" ∧
      (List.Pairwise (fun a b => lowerName a ≠ lowerName b) [⟨"a.jpg", 0⟩, ⟨"b.jpg", 0⟩] →
        sort_images [⟨"a.jpg", 0⟩, ⟨"b.jpg", 0⟩] "name_za" =
          (sort_images [⟨"a.jpg", 0⟩, ⟨"b.jpg", 0⟩] "name_az").reverse) :=
  sort_images_az_za_spec [⟨"a.jpg", 0⟩, ⟨"b.jpg", 0⟩] (by decide)

end AWP
